import Mathlib

/-
Verification development for the chip8 emulator (Go, package chip8).
The CPU state and the functions EmulateCycle and LoadRom are shallowly
embedded from the source file that defines them.  Machine integers are
modelled as Nat with explicit reduction modulo 2^8 / 2^16 where the Go
types wrap; every Go array access is bounds checked exactly as the Go
runtime checks it, with a panic modelled as Option.none.  Array indices
that are syntactically bounded by the extraction mask (for example
(w &&& 0x0F00) >>> 8 < 16) are accessed directly, since the Go bounds
check can never fire for them; all other indices go through the checked
accessors rd / wr / rd2 / wr2.  The random byte consumed by opcode Cxkk
is passed in as an explicit parameter.  Diagnostics written with
fmt.Printf and the BEEP side effect are modelled as a list of events
returned next to the new state.
-/

namespace Chip8

/-- Reduction modulo 2^8, the behaviour of the Go uint8 type. -/
def u8 (n : Nat) : Nat := n % 256

/-- Reduction modulo 2^16, the behaviour of the Go uint16 type. -/
def u16 (n : Nat) : Nat := n % 65536

/-- Subtraction of Go uint8 values (wrapping, for arguments below 256). -/
def sub8 (a b : Nat) : Nat := (a + 256 - b) % 256

/-- Pointwise update of a one dimensional array modelled as a function. -/
def upd (a : Nat → Nat) (i v : Nat) : Nat → Nat :=
  fun j => if j = i then v else a j

/-- Pointwise update of a two dimensional array modelled as a function. -/
def upd2 (d : Nat → Nat → Nat) (i j v : Nat) : Nat → Nat → Nat :=
  fun r c => if r = i then (if c = j then v else d r c) else d r c

/-- Bounds checked array read; none models the Go index-out-of-range panic. -/
def rd (a : Nat → Nat) (len i : Nat) : Option Nat :=
  if i < len then some (a i) else none

/-- Bounds checked array write; none models the Go index-out-of-range panic. -/
def wr (a : Nat → Nat) (len i v : Nat) : Option (Nat → Nat) :=
  if i < len then some (upd a i v) else none

/-- Bounds checked read of the 32 x 64 display array. -/
def rd2 (d : Nat → Nat → Nat) (i j : Nat) : Option Nat :=
  if i < 32 then (if j < 64 then some (d i j) else none) else none

/-- Bounds checked write of the 32 x 64 display array. -/
def wr2 (d : Nat → Nat → Nat) (i j v : Nat) : Option (Nat → Nat → Nat) :=
  if i < 32 then (if j < 64 then some (upd2 d i j v) else none) else none

/-- Observable side effects of one emulated cycle: the two Printf
diagnostics for undecoded instruction words (each carrying the offending
word, as the format strings do) and the BEEP line printed by the sound
timer. -/
inductive Ev where
  | unknownOp (w : Nat)
  | invalidOp (w : Nat)
  | beep
deriving DecidableEq

/-- The CPU struct of the Go source, field for field.  Arrays become
functions from Nat; the Go element types bound the stored values, which
theorems assume explicitly where needed. -/
structure CPU where
  Memory : Nat → Nat
  Opcode : Nat
  V : Nat → Nat
  I : Nat
  Pc : Nat
  Delay_timer : Nat
  Sound_timer : Nat
  Display : Nat → Nat → Nat
  Stack_pointer : Nat
  Stack : Nat → Nat
  Keypad : Nat → Nat
  DrawFlag : Bool

/-- Operand field x of an instruction word, bits 8-11. -/
def vxIdx (w : Nat) : Nat := (w &&& 0x0F00) >>> 8

/-- Operand field y of an instruction word, bits 4-7. -/
def vyIdx (w : Nat) : Nat := (w &&& 0x00F0) >>> 4

/-- The clear screen loop of opcode 00E0 as written in the source: the
outer index runs to 63 and the inner to 31 over the [32][64] display
array, so rows 32..63 are addressed out of range. -/
def clearLoop (d : Nat → Nat → Nat) : Option (Nat → Nat → Nat) :=
  (List.range 64).foldlM (fun d i =>
    (List.range 32).foldlM (fun d j => wr2 d i j 0x0) d) d

/-- One iteration of the Fx0A keypad scan loop. -/
def keyStep (K : Nat → Nat) (x : Nat) (q : (Nat → Nat) × Bool) (i : Nat) :
    (Nat → Nat) × Bool :=
  if K i ≠ 0 then (upd q.1 x i, true) else q

/-- The Fx0A scan over all 16 keys, returning the register file after the
loop together with the pressed flag. -/
def keyScan (K V : Nat → Nat) (x : Nat) : (Nat → Nat) × Bool :=
  (List.range 16).foldl (keyStep K x) (V, false)

/-- The nested sprite drawing loops of opcode Dxyn.  The row count is the
value the source reads, the accumulated pair is the display and the
collision flag that ends up in VF. -/
def drawSprite (mem : Nat → Nat) (d : Nat → Nat → Nat) (I x y h : Nat) :
    Option ((Nat → Nat → Nat) × Nat) :=
  (List.range h).foldlM (fun (p : (Nat → Nat → Nat) × Nat) yline => do
    let pixel ← rd mem 4096 (u16 (I + yline))
    (List.range 8).foldlM (fun (q : (Nat → Nat → Nat) × Nat) xline =>
      if pixel &&& (0x80 >>> xline) ≠ 0 then do
        let r := u8 (y + yline)
        let co := u8 (x + xline)
        let cur ← rd2 q.1 r co
        let vf := if cur = 1 then 1 else q.2
        let d2 ← wr2 q.1 r co (cur ^^^ 1)
        pure (d2, vf)
      else pure q) p) (d, 0)

/-- Decode and execute one already-fetched instruction word, mirroring the
switch statement of EmulateCycle case by case (including the misindexed
stack push of 2nnn, the misindexed register accesses of 8xy0..8xy3, the
unclamped display indices of Dxyn and the default cases that only print).
The Bool result is true when the Go code returns early from the method
(the Fx0A branch with no key pressed), skipping the timer update. -/
def execOp (rnd w : Nat) (c : CPU) : Option (CPU × List Ev × Bool) :=
  if w &&& 0xF000 = 0x0000 then
    if w &&& 0x000F = 0x0000 then do
      let d ← clearLoop c.Display
      pure ({ c with Display := d, Pc := u16 (c.Pc + 2) }, [], false)
    else if w &&& 0x000F = 0x000E then do
      let sp := sub8 c.Stack_pointer 1
      let ret ← rd c.Stack 16 sp
      pure ({ c with Stack_pointer := sp, Pc := u16 (ret + 2) }, [], false)
    else
      pure (c, [Ev.unknownOp w], false)
  else if w &&& 0xF000 = 0x1000 then
    pure ({ c with Pc := w &&& 0x0FFF }, [], false)
  else if w &&& 0xF000 = 0x2000 then do
    let st ← wr c.Stack 16 c.Pc c.Pc
    pure ({ c with Stack := st,
                   Stack_pointer := u8 (c.Stack_pointer + 1),
                   Pc := w &&& 0x0FFF }, [], false)
  else if w &&& 0xF000 = 0x3000 then
    if c.V (vxIdx w) = w &&& 0x00FF then
      pure ({ c with Pc := u16 (c.Pc + 4) }, [], false)
    else
      pure ({ c with Pc := u16 (c.Pc + 2) }, [], false)
  else if w &&& 0xF000 = 0x4000 then
    if c.V (vxIdx w) ≠ w &&& 0x00FF then
      pure ({ c with Pc := u16 (c.Pc + 4) }, [], false)
    else
      pure ({ c with Pc := u16 (c.Pc + 2) }, [], false)
  else if w &&& 0xF000 = 0x5000 then
    if c.V (vxIdx w) = c.V (vyIdx w) then
      pure ({ c with Pc := u16 (c.Pc + 4) }, [], false)
    else
      pure ({ c with Pc := u16 (c.Pc + 2) }, [], false)
  else if w &&& 0xF000 = 0x6000 then
    pure ({ c with V := upd c.V (vxIdx w) (w &&& 0x00FF),
                   Pc := u16 (c.Pc + 2) }, [], false)
  else if w &&& 0xF000 = 0x7000 then
    pure ({ c with V := upd c.V (vxIdx w) (u8 (c.V (vxIdx w) + (w &&& 0x00FF))),
                   Pc := u16 (c.Pc + 2) }, [], false)
  else if w &&& 0xF000 = 0x8000 then
    if w &&& 0x000F = 0x0000 then do
      let v ← rd c.V 16 (w &&& 0x00F0)
      let V2 ← wr c.V 16 ((w &&& 0x0F00) >>> 4) v
      pure ({ c with V := V2, Pc := u16 (c.Pc + 2) }, [], false)
    else if w &&& 0x000F = 0x0001 then do
      let a ← rd c.V 16 ((w &&& 0x0F00) >>> 4)
      let b ← rd c.V 16 (w &&& 0x00F0)
      let V2 ← wr c.V 16 ((w &&& 0x0F00) >>> 4) (a ||| b)
      pure ({ c with V := V2, Pc := u16 (c.Pc + 2) }, [], false)
    else if w &&& 0x000F = 0x0002 then do
      let a ← rd c.V 16 ((w &&& 0x0F00) >>> 4)
      let b ← rd c.V 16 (w &&& 0x00F0)
      let V2 ← wr c.V 16 ((w &&& 0x0F00) >>> 4) (a &&& b)
      pure ({ c with V := V2, Pc := u16 (c.Pc + 2) }, [], false)
    else if w &&& 0x000F = 0x0003 then do
      let a ← rd c.V 16 ((w &&& 0x0F00) >>> 4)
      let b ← rd c.V 16 (w &&& 0x00F0)
      let V2 ← wr c.V 16 ((w &&& 0x0F00) >>> 4) (a ^^^ b)
      pure ({ c with V := V2, Pc := u16 (c.Pc + 2) }, [], false)
    else if w &&& 0x000F = 0x0004 then
      let cf := if c.V (vyIdx w) > 0xFF - c.V (vxIdx w) then 1 else 0
      let V1 := upd c.V 0xF cf
      let V2 := upd V1 (vxIdx w) (u8 (V1 (vxIdx w) + V1 (vyIdx w)))
      pure ({ c with V := V2, Pc := u16 (c.Pc + 2) }, [], false)
    else if w &&& 0x000F = 0x0005 then
      let cf := if c.V (vyIdx w) > c.V (vxIdx w) then 0 else 1
      let V1 := upd c.V 0xF cf
      let V2 := upd V1 (vxIdx w) (sub8 (V1 (vxIdx w)) (V1 (vyIdx w)))
      pure ({ c with V := V2, Pc := u16 (c.Pc + 2) }, [], false)
    else if w &&& 0x000F = 0x0006 then
      let V1 := upd c.V 0xF (c.V (vxIdx w) &&& 0x1)
      let V2 := upd V1 (vxIdx w) (V1 (vxIdx w) >>> 1)
      pure ({ c with V := V2, Pc := u16 (c.Pc + 2) }, [], false)
    else if w &&& 0x000F = 0x0007 then
      let cf := if c.V (vxIdx w) > c.V (vyIdx w) then 0 else 1
      let V1 := upd c.V 0xF cf
      let V2 := upd V1 (vxIdx w) (sub8 (V1 (vyIdx w)) (V1 (vxIdx w)))
      pure ({ c with V := V2, Pc := u16 (c.Pc + 2) }, [], false)
    else if w &&& 0x000F = 0x000E then
      let V1 := upd c.V 0xF (c.V (vxIdx w) >>> 7)
      let V2 := upd V1 (vxIdx w) (u8 (V1 (vxIdx w) <<< 1))
      pure ({ c with V := V2, Pc := u16 (c.Pc + 2) }, [], false)
    else
      pure (c, [Ev.invalidOp w], false)
  else if w &&& 0xF000 = 0x9000 then
    if c.V (vxIdx w) ≠ c.V (vyIdx w) then
      pure ({ c with Pc := u16 (c.Pc + 4) }, [], false)
    else
      pure ({ c with Pc := u16 (c.Pc + 2) }, [], false)
  else if w &&& 0xF000 = 0xA000 then
    pure ({ c with I := w &&& 0x0FFF, Pc := u16 (c.Pc + 2) }, [], false)
  else if w &&& 0xF000 = 0xB000 then
    pure ({ c with Pc := u16 ((w &&& 0x0FFF) + c.V 0x0) }, [], false)
  else if w &&& 0xF000 = 0xC000 then
    pure ({ c with V := upd c.V (vxIdx w) (u8 rnd &&& (w &&& 0x00FF)),
                   Pc := u16 (c.Pc + 2) }, [], false)
  else if w &&& 0xF000 = 0xD000 then do
    let x := c.V (vxIdx w)
    let y := c.V (vyIdx w)
    let height := c.V (w &&& 0x000F)
    let p ← drawSprite c.Memory c.Display c.I x y height
    pure ({ c with Display := p.1,
                   V := upd c.V 0xF p.2,
                   DrawFlag := true,
                   Pc := u16 (c.Pc + 2) }, [], false)
  else if w &&& 0xF000 = 0xE000 then
    if w &&& 0x00FF = 0x009E then do
      let k ← rd c.Keypad 16 (c.V (vxIdx w))
      if k ≠ 0 then
        pure ({ c with Pc := u16 (c.Pc + 4) }, [], false)
      else
        pure ({ c with Pc := u16 (c.Pc + 2) }, [], false)
    else if w &&& 0x00FF = 0x00A1 then do
      let k ← rd c.Keypad 16 (c.V (vxIdx w))
      if k = 0 then
        pure ({ c with Pc := u16 (c.Pc + 4) }, [], false)
      else
        pure ({ c with Pc := u16 (c.Pc + 2) }, [], false)
    else
      pure (c, [Ev.invalidOp w], false)
  else if w &&& 0xF000 = 0xF000 then
    if w &&& 0x00FF = 0x0007 then
      pure ({ c with V := upd c.V (vxIdx w) c.Delay_timer,
                     Pc := u16 (c.Pc + 2) }, [], false)
    else if w &&& 0x00FF = 0x000A then
      let p := keyScan c.Keypad c.V (vxIdx w)
      if p.2 = true then
        pure ({ c with V := p.1, Pc := u16 (c.Pc + 2) }, [], false)
      else
        pure ({ c with V := p.1 }, [], true)
    else if w &&& 0x00FF = 0x0015 then
      pure ({ c with Delay_timer := c.V (vxIdx w), Pc := u16 (c.Pc + 2) },
            [], false)
    else if w &&& 0x00FF = 0x0018 then
      pure ({ c with Sound_timer := c.V (vxIdx w), Pc := u16 (c.Pc + 2) },
            [], false)
    else if w &&& 0x00FF = 0x001E then
      pure ({ c with I := u16 (c.I + c.V (vxIdx w)), Pc := u16 (c.Pc + 2) },
            [], false)
    else if w &&& 0x00FF = 0x0029 then
      pure ({ c with I := c.V (vxIdx w) * 0x5, Pc := u16 (c.Pc + 2) },
            [], false)
    else if w &&& 0x00FF = 0x0033 then do
      let m1 ← wr c.Memory 4096 c.I (c.V (vxIdx w) / 100)
      let m2 ← wr m1 4096 (u16 (c.I + 1)) ((c.V (vxIdx w) / 10) % 10)
      let m3 ← wr m2 4096 (u16 (c.I + 2)) ((c.V (vxIdx w) % 100) % 10)
      pure ({ c with Memory := m3, Pc := u16 (c.Pc + 2) }, [], false)
    else if w &&& 0x00FF = 0x0055 then do
      let m0 ← wr c.Memory 4096 c.I (c.V (vxIdx w))
      let ml ← (List.range (vxIdx w + 1)).foldlM
        (fun m i => wr m 4096 (u16 (c.I + i)) (c.V i)) m0
      pure ({ c with Memory := ml, Pc := u16 (c.Pc + 2) }, [], false)
    else if w &&& 0x00FF = 0x0065 then do
      let v0 ← rd c.Memory 4096 c.I
      let W0 := upd c.V (vxIdx w) v0
      let Wl ← (List.range (vxIdx w + 1)).foldlM
        (fun W i => do pure (upd W i (← rd c.Memory 4096 (u16 (c.I + i))))) W0
      pure ({ c with V := Wl, Pc := u16 (c.Pc + 2) }, [], false)
    else
      pure (c, [Ev.unknownOp w], false)
  else
    pure (c, [Ev.unknownOp w], false)

/-- The timer update at the end of EmulateCycle: the delay timer
decrements whenever positive, the sound timer only in the branch where it
equals 1, which also prints BEEP. -/
def tick (c : CPU) : CPU × List Ev :=
  let c1 := if c.Delay_timer > 0
    then { c with Delay_timer := c.Delay_timer - 1 } else c
  if c1.Sound_timer > 0 then
    if c1.Sound_timer = 1 then
      ({ c1 with Sound_timer := c1.Sound_timer - 1 }, [Ev.beep])
    else (c1, [])
  else (c1, [])

/-- One full call of EmulateCycle: fetch the big endian instruction word
at PC, store it in the Opcode field, execute it, then run the timer
update unless the Fx0A branch returned early. -/
def EmulateCycle (rnd : Nat) (c : CPU) : Option (CPU × List Ev) := do
  let b1 ← rd c.Memory 4096 c.Pc
  let b2 ← rd c.Memory 4096 (u16 (c.Pc + 1))
  let w := (b1 <<< 8) ||| b2
  let c1 : CPU := { c with Opcode := w }
  let r ← execOp rnd w c1
  if r.2.2 then pure (r.1, r.2.1)
  else
    let t := tick r.1
    pure (t.1, r.2.1 ++ t.2)

/-- The copy loop of LoadRom: byte i of the ROM goes to memory cell
i + 512, with the Go bounds check on each write. -/
def copyRom : List Nat → Nat → (Nat → Nat) → Option (Nat → Nat)
  | [], _, m => some m
  | b :: bs, i, m => do copyRom bs (i + 1) (← wr m 4096 (i + 512) b)

/-- LoadRom restricted to its memory effect: the file read is modelled by
handing the byte list in directly; a failed bounds check (the Go panic)
is none. -/
def LoadRom (data : List Nat) (c : CPU) : Option CPU :=
  (copyRom data 0 c.Memory).map (fun m => { c with Memory := m })

/-- A machine state with everything zeroed and PC at the program start,
used as the base of the concrete test states below. -/
def c0 : CPU where
  Memory := fun _ => 0
  Opcode := 0
  V := fun _ => 0
  I := 0
  Pc := 0x200
  Delay_timer := 0
  Sound_timer := 0
  Display := fun _ _ => 0
  Stack_pointer := 0
  Stack := fun _ => 0
  Keypad := fun _ => 0
  DrawFlag := false

/-- Memory holding one two byte instruction at address p and zero
elsewhere. -/
def memProg (p a b : Nat) : Nat → Nat :=
  fun i => if i = p then a else if i = p + 1 then b else 0

/-- State about to execute 2nnn (opcode 0x2200) from PC 0x200 with an
empty stack. -/
def sC1 : CPU := { c0 with Memory := memProg 0x200 0x22 0x00 }

/-- State about to execute 2nnn from PC 5 with the stack pointer already
at 16 (a push from here would have to overflow-check). -/
def sC2a : CPU :=
  { c0 with Memory := memProg 5 0x23 0x00, Pc := 5, Stack_pointer := 16 }

/-- State about to execute 00EE with stack pointer 0 (underflow). -/
def sC2b : CPU := { c0 with Memory := memProg 0x200 0x00 0xEE }

/-- State about to execute the unrecognized word 0x0001. -/
def sC3 : CPU := { c0 with Memory := memProg 0x200 0x00 0x01 }

/-- State about to execute 6xkk with the sound timer at 2. -/
def sC5a : CPU :=
  { c0 with Memory := memProg 0x200 0x60 0x00, Sound_timer := 2 }

/-- State about to execute Fx0A with no key pressed and both timers
positive. -/
def sC5b : CPU :=
  { c0 with Memory := memProg 0x200 0xF0 0x0A,
            Delay_timer := 3, Sound_timer := 2 }

/-- State about to execute Dxyn (word 0xD012) with the sprite origin at
column 60, so the 8 pixel row crosses the right screen edge. -/
def sC6 : CPU :=
  { c0 with
      Memory := fun i =>
        if i = 0x200 then 0xD0 else if i = 0x201 then 0x12
        else if i = 0x300 then 0xFF else 0,
      V := fun i => if i = 0 then 60 else if i = 2 then 1 else 0,
      I := 0x300 }

/-- State about to execute 8xy0 with x = 1 and y = 2 (word 0x8120). -/
def sC7 : CPU := { c0 with Memory := memProg 0x200 0x81 0x20 }

/-- With enough room below the 4096 byte boundary, the copy loop of
LoadRom succeeds, writes byte k of the ROM to cell i + 512 + k and leaves
every cell outside the written window untouched. -/
theorem copyRom_le (bs : List Nat) : ∀ (i : Nat) (m : Nat → Nat),
    i + bs.length ≤ 3584 →
    ∃ m2, copyRom bs i m = some m2 ∧
      (∀ k, k < bs.length → m2 (i + 512 + k) = bs.getD k 0) ∧
      (∀ j, j < i + 512 ∨ i + 512 + bs.length ≤ j → m2 j = m j) := by
  induction bs with
  | nil =>
    intro i m _
    exact ⟨m, rfl, by simp, fun j _ => rfl⟩
  | cons b bs ih =>
    intro i m h
    simp only [List.length_cons] at h
    have hi : i + 512 < 4096 := by omega
    obtain ⟨m2, hm2, hcopy, hrest⟩ :=
      ih (i + 1) (upd m (i + 512) b) (by omega)
    refine ⟨m2, ?_, ?_, ?_⟩
    · simp [copyRom, wr, hi, hm2]
    · intro k hk
      match k with
      | 0 =>
        have hr := hrest (i + 512) (Or.inl (by omega))
        simpa [upd] using hr
      | Nat.succ k =>
        have hc := hcopy k (by simpa using hk)
        have he : i + 1 + 512 + k = i + 512 + (k + 1) := by omega
        rw [he] at hc
        simpa using hc
    · intro j hj
      have h1 : m2 j = upd m (i + 512) b j := by
        refine hrest j ?_
        rcases hj with hj | hj
        · exact Or.inl (by omega)
        · exact Or.inr (by simp at hj ⊢; omega)
      rw [h1]
      have hne : j ≠ i + 512 := by
        rcases hj with hj | hj
        · omega
        · simp only [List.length_cons] at hj; omega
      simp [upd, hne]

/-- When the ROM tail would cross the 4096 byte boundary, the copy loop
of LoadRom reaches the out of range write and dies. -/
theorem copyRom_gt (bs : List Nat) : ∀ (i : Nat) (m : Nat → Nat),
    3584 < i + bs.length → i ≤ 3584 → copyRom bs i m = none := by
  induction bs with
  | nil => intro i m h1 h2; simp at h1; omega
  | cons b bs ih =>
    intro i m h1 h2
    by_cases hi : i = 3584
    · subst hi
      simp [copyRom, wr]
    · have hlt : i + 512 < 4096 := by omega
      simp only [List.length_cons] at h1
      simp [copyRom, wr, hlt, ih (i + 1) (upd m (i + 512) b) (by omega) (by omega)]

/-- C8: loading at most 3584 bytes copies them to memory from address
0x200 and touches nothing else, while a longer ROM makes the load die on
the out of range write (the fatal, caller observable abort) before any
cycle can run; nothing is silently truncated. -/
theorem C8_load_rom (data : List Nat) (c : CPU) :
    (data.length ≤ 3584 →
      ∃ c2, LoadRom data c = some c2 ∧
        (∀ k, k < data.length → c2.Memory (512 + k) = data.getD k 0) ∧
        (∀ j, j < 512 ∨ 512 + data.length ≤ j → c2.Memory j = c.Memory j) ∧
        c2.Opcode = c.Opcode ∧ c2.V = c.V ∧ c2.I = c.I ∧ c2.Pc = c.Pc ∧
        c2.Delay_timer = c.Delay_timer ∧ c2.Sound_timer = c.Sound_timer ∧
        c2.Display = c.Display ∧ c2.Stack_pointer = c.Stack_pointer ∧
        c2.Stack = c.Stack ∧ c2.Keypad = c.Keypad ∧
        c2.DrawFlag = c.DrawFlag) ∧
    (3584 < data.length → LoadRom data c = none) := by
  constructor
  · intro hlen
    obtain ⟨m2, hm2, hcopy, hrest⟩ :=
      copyRom_le data 0 c.Memory (by omega)
    refine ⟨{ c with Memory := m2 }, ?_, ?_, ?_,
      rfl, rfl, rfl, rfl, rfl, rfl, rfl, rfl, rfl, rfl, rfl⟩
    · simp [LoadRom, hm2]
    · intro k hk
      simpa using hcopy k hk
    · intro j hj
      refine hrest j ?_
      simpa using hj
  · intro hlen
    simp [LoadRom, copyRom_gt data 0 c.Memory (by omega) (by omega)]

/-- C8 witness: the spec boundary values, a 3584 byte ROM loads and a
3585 byte ROM dies. -/
theorem C8_load_rom_w :
    (LoadRom (List.replicate 3584 7) c0).isSome = true ∧
    LoadRom (List.replicate 3585 7) c0 = none := by
  constructor
  · obtain ⟨c2, hc2, -⟩ :=
      (C8_load_rom (List.replicate 3584 7) c0).1
        (by simp only [List.length_replicate]; omega)
    rw [hc2]
    rfl
  · exact (C8_load_rom (List.replicate 3585 7) c0).2
      (by simp only [List.length_replicate]; omega)

/-- The timer update never touches any field of the state other than the
two timers. -/
theorem tick_fields (c : CPU) :
    (tick c).1.Memory = c.Memory ∧ (tick c).1.Opcode = c.Opcode ∧
    (tick c).1.V = c.V ∧ (tick c).1.I = c.I ∧ (tick c).1.Pc = c.Pc ∧
    (tick c).1.Display = c.Display ∧
    (tick c).1.Stack_pointer = c.Stack_pointer ∧
    (tick c).1.Stack = c.Stack ∧ (tick c).1.Keypad = c.Keypad ∧
    (tick c).1.DrawFlag = c.DrawFlag := by
  simp only [tick]
  split <;> split <;> try split
  all_goals simp_all

/-- When the two fetched bytes are in range, one cycle is the executed
opcode followed by the timer update (skipped on the early return). -/
theorem EmulateCycle_fetch (rnd : Nat) (c : CPU) (h : c.Pc + 1 < 4096) :
    EmulateCycle rnd c =
      (execOp rnd ((c.Memory c.Pc <<< 8) ||| c.Memory (c.Pc + 1))
          { c with Opcode := (c.Memory c.Pc <<< 8) ||| c.Memory (c.Pc + 1) }).bind
        (fun r =>
          if r.2.2 then some (r.1, r.2.1)
          else some ((tick r.1).1, r.2.1 ++ (tick r.1).2)) := by
  have h1 : c.Pc < 4096 := by omega
  have h2 : u16 (c.Pc + 1) = c.Pc + 1 := Nat.mod_eq_of_lt (by omega)
  simp [EmulateCycle, rd, h1, h2, h]


/-- A mask that is itself a shifted value distributes over the bitwise
and as a shift of the masked high part. -/
theorem and_shl (w m n : Nat) : w &&& (m <<< n) = ((w >>> n) &&& m) <<< n := by
  apply Nat.eq_of_testBit_eq
  intro i
  rcases Nat.lt_or_ge i n with h | h
  · simp [Nat.testBit_and, Nat.testBit_shiftLeft, Nat.testBit_shiftRight,
      Nat.not_le.2 h]
  · have he : n + (i - n) = i := by omega
    simp [Nat.testBit_and, Nat.testBit_shiftLeft, Nat.testBit_shiftRight, h, he]

/-- The fetched word is the high byte shifted next to the low byte. -/
theorem or_byte (a b : Nat) (hb : b < 256) : a <<< 8 ||| b = 256 * a + b := by
  rw [Nat.shiftLeft_eq, Nat.mul_comm]
  exact (Nat.mul_add_lt_is_or (show b < 2 ^ 8 from hb) a).symm

/-- Bitwise and with 15 is reduction mod 16. -/
theorem and_mask16 (w : Nat) : w &&& 15 = w % 16 := by
  simpa using Nat.and_pow_two_sub_one_eq_mod w 4

/-- Bitwise and with 255 is reduction mod 256. -/
theorem and_mask256 (w : Nat) : w &&& 255 = w % 256 := by
  simpa using Nat.and_pow_two_sub_one_eq_mod w 8

/-- Bitwise and with 4095 is reduction mod 4096. -/
theorem and_mask4096 (w : Nat) : w &&& 4095 = w % 4096 := by
  simpa using Nat.and_pow_two_sub_one_eq_mod w 12

/-- The top nibble mask in div mod form. -/
theorem andF000 (v : Nat) : v &&& 0xF000 = v / 4096 % 16 * 4096 := by
  rw [show (0xF000 : Nat) = 15 <<< 12 from rfl, and_shl,
    Nat.shiftRight_eq_div_pow, and_mask16, Nat.shiftLeft_eq]

/-- The x operand mask in div mod form. -/
theorem and0F00 (v : Nat) : v &&& 0x0F00 = v / 256 % 16 * 256 := by
  rw [show (0x0F00 : Nat) = 15 <<< 8 from rfl, and_shl,
    Nat.shiftRight_eq_div_pow, and_mask16, Nat.shiftLeft_eq]

/-- The y operand mask in div mod form. -/
theorem and00F0 (v : Nat) : v &&& 0x00F0 = v / 16 % 16 * 16 := by
  rw [show (0x00F0 : Nat) = 15 <<< 4 from rfl, and_shl,
    Nat.shiftRight_eq_div_pow, and_mask16, Nat.shiftLeft_eq]

/-- All operand field extractions of a fetched word, in arithmetic form,
for a high byte a and a low byte b. -/
theorem word_fields (a b : Nat) (ha : a < 256) (hb : b < 256) :
    (a <<< 8 ||| b) &&& 0xF000 = a / 16 * 4096 ∧
    ((a <<< 8 ||| b) &&& 0x0F00) >>> 8 = a % 16 ∧
    ((a <<< 8 ||| b) &&& 0x0F00) >>> 4 = a % 16 * 16 ∧
    (a <<< 8 ||| b) &&& 0x00F0 = b / 16 * 16 ∧
    ((a <<< 8 ||| b) &&& 0x00F0) >>> 4 = b / 16 ∧
    (a <<< 8 ||| b) &&& 0x000F = b % 16 ∧
    (a <<< 8 ||| b) &&& 0x00FF = b ∧
    (a <<< 8 ||| b) &&& 0x0FFF = a % 16 * 256 + b := by
  rw [or_byte a b hb]
  refine ⟨?_, ?_, ?_, ?_, ?_, ?_, ?_, ?_⟩
  · rw [andF000]; omega
  · rw [and0F00, Nat.shiftRight_eq_div_pow]; omega
  · rw [and0F00, Nat.shiftRight_eq_div_pow]; omega
  · rw [and00F0]; omega
  · rw [and00F0, Nat.shiftRight_eq_div_pow]; omega
  · rw [show (0x000F : Nat) = 15 from rfl, and_mask16]; omega
  · rw [show (0x00FF : Nat) = 255 from rfl, and_mask256]; omega
  · rw [show (0x0FFF : Nat) = 4095 from rfl, and_mask4096]; omega

/-- Shape helper: one cycle that runs the timer update ends in the state
tick produces. -/
theorem exists_tick (S : CPU) (P : CPU → Prop) (h : P (tick S).1) :
    ∃ c2, (∃ evs, tick S = (c2, evs)) ∧ P c2 :=
  ⟨(tick S).1, ⟨(tick S).2, rfl⟩, h⟩

/-- With no key down, the Fx0A scan loop changes nothing and reports no
press. -/
theorem keyScan_none (K V : Nat → Nat) (x : Nat)
    (h : ∀ i, i < 16 → K i = 0) : keyScan K V x = (V, false) := by
  have aux : ∀ n, n ≤ 16 →
      (List.range n).foldl (keyStep K x) (V, false) = (V, false) := by
    intro n
    induction n with
    | zero => intro; rfl
    | succ n ih =>
      intro hn
      rw [List.range_succ, List.foldl_append, ih (by omega)]
      simp [keyStep, h n (by omega)]
  exact aux 16 (by omega)

/-- When key k is down and every key above it is up, the Fx0A scan loop
ends with k in the scanned register: the loop keeps overwriting, so the
highest pressed index wins. -/
theorem keyScan_high (K V : Nat → Nat) (x k : Nat) (hk : k < 16)
    (hK : K k ≠ 0) (hz : ∀ j, k < j → j < 16 → K j = 0) :
    (keyScan K V x).1 x = k ∧ (keyScan K V x).2 = true := by
  have aux : ∀ n, k < n → n ≤ 16 →
      ((List.range n).foldl (keyStep K x) (V, false)).1 x = k ∧
      ((List.range n).foldl (keyStep K x) (V, false)).2 = true := by
    intro n
    induction n with
    | zero => intro h; omega
    | succ n ih =>
      intro hkn hn
      rw [List.range_succ, List.foldl_append]
      rcases Nat.lt_or_ge k n with h | h
      · have h0 := hz n h (by omega)
        have ihh := ih h (by omega)
        simpa [keyStep, h0] using ihh
      · have hnk : n = k := by omega
        subst hnk
        simp [keyStep, hK, upd]
  exact aux 16 hk (by omega)

end Chip8

namespace Chip8

/-- C1: the claim says a 2nnn call pushes the current PC into the stack
slot indexed by the stack pointer.  The source instead indexes the stack
array by the PC itself (cpu.Stack[cpu.Pc] = cpu.Pc), so from any real
call site (PC at least 0x200, far beyond the 16 stack slots) the push is
an out of range access and the cycle dies instead of pushing: the claim
describes the intended semantics, the code has a slip. -/
theorem C1_call_push_out_of_range : EmulateCycle 0 sC1 = none := rfl

/-- C2: no stack bound is checked anywhere.  A 2nnn executed with the
stack pointer already at 16 (from the low call site PC 5, where the
misindexed push happens to stay in range) silently increments the
pointer to 17 and continues with no diagnostic event, and a 00EE with
stack pointer 0 wraps the pointer to 255 and dies on the out of range
stack read, instead of either case surfacing the distinguishable error
the claim requires. -/
theorem C2_no_stack_bound_error :
    (EmulateCycle 0 sC2a).map (fun r => (r.1.Stack_pointer, r.1.Pc, r.2))
      = some (17, 0x300, []) ∧
    EmulateCycle 0 sC2b = none := ⟨rfl, rfl⟩

/-- C3: on the unrecognized word 0x0001 the cycle prints the diagnostic
but leaves PC unchanged at 0x200 rather than advancing it by 2, so the
same word is fetched forever; the claim (and the spec policy it quotes)
requires PC + 2. -/
theorem C3_unknown_opcode_pc_stuck :
    (EmulateCycle 0 sC3).map (fun r => (r.1.Pc, r.2))
      = some (0x200, [Ev.unknownOp 0x0001]) ∧
    (EmulateCycle 0 sC3).map (fun r => r.1.Pc) ≠ some 0x202 :=
  ⟨rfl, by decide⟩

/-- C5: the sound timer only decrements in the branch where it already
equals 1, so a sound timer of 2 stays at 2 after a full cycle (first
conjunct), contradicting the claimed count down toward zero; and the
early return of Fx0A with no key pressed skips the timer update
entirely, so neither timer moves on such a cycle (second conjunct),
contradicting the claim that every step ends with a timer tick. -/
theorem C5_timer_tick_broken :
    (EmulateCycle 0 sC5a).map (fun r => (r.1.Sound_timer, r.2))
      = some (2, []) ∧
    (EmulateCycle 0 sC5b).map (fun r => (r.1.Delay_timer, r.1.Sound_timer, r.2))
      = some (3, 2, []) := ⟨rfl, rfl⟩

/-- C6: drawing an 8 pixel sprite row starting at column 60 reaches
column 64; the source does not reduce the column modulo 64 (nor the row
modulo 32), so the display access is out of range and the cycle dies
where the claim requires wrap around. -/
theorem C6_draw_no_wrap : EmulateCycle 0 sC6 = none := rfl

/-- C7: for word 0x8120 the source computes the destination register
index as (w AND 0x0F00) right shifted by 4 (giving 16) and the source
index as w AND 0x00F0 (giving 32), both past the 16 registers, so the
cycle dies instead of copying V2 into V1 as the claim states. -/
theorem C7_mov_misindexed : EmulateCycle 0 sC7 = none := rfl


/-- State about to execute Fx33 (word 0xF333) with V3 = 159 and
I = 0x400. -/
def sC9 : CPU :=
  { c0 with Memory := memProg 0x200 0xF3 0x33,
            V := fun i => if i = 3 then 159 else 0,
            I := 0x400 }

/-- C9: for any state fetching Fx33 with the three target cells in
range, one cycle stores the hundreds, tens and ones digits of Vx at I,
I + 1 and I + 2, changes no other memory cell, and advances PC by 2.
The source writes (Vx mod 100) mod 10 for the ones digit, which equals
Vx mod 10. -/
theorem C9_bcd (rnd x : Nat) (c : CPU) (hx : x < 16)
    (hpc : c.Pc + 1 < 4096)
    (hb1 : c.Memory c.Pc = 0xF0 + x) (hb2 : c.Memory (c.Pc + 1) = 0x33)
    (hv : c.V x < 256) (hI : c.I + 2 < 4096) :
    ∃ c2 evs, EmulateCycle rnd c = some (c2, evs) ∧
      c2.Memory c.I = c.V x / 100 ∧
      c2.Memory (c.I + 1) = c.V x / 10 % 10 ∧
      c2.Memory (c.I + 2) = c.V x % 10 ∧
      (∀ j, j ≠ c.I → j ≠ c.I + 1 → j ≠ c.I + 2 → c2.Memory j = c.Memory j) ∧
      c2.Pc = u16 (c.Pc + 2) := by
  have hI0 : c.I < 4096 := by omega
  have hI1 : c.I + 1 < 4096 := by omega
  have hu1 : u16 (c.I + 1) = c.I + 1 := Nat.mod_eq_of_lt (by omega)
  have hu2 : u16 (c.I + 2) = c.I + 2 := Nat.mod_eq_of_lt (by omega)
  obtain ⟨w1, w2, w3, w4, w5, w6, w7, w8⟩ :=
    word_fields (0xF0 + x) 0x33 (by omega) (by decide)
  have e1 : (0xF0 + x) / 16 * 4096 = 61440 := by omega
  have e2 : (0xF0 + x) % 16 = x := by omega
  rw [e1] at w1
  rw [e2] at w2
  rw [EmulateCycle_fetch rnd c hpc, hb1, hb2]
  simp only [execOp, vxIdx, w1, w2, w7]
  simp +decide [wr, hI0, hI1, hI, hu1, hu2]
  refine exists_tick _ _ ⟨?_, ?_, ?_, ?_, ?_⟩
  · rw [(tick_fields _).1]
    simp [upd]
  · rw [(tick_fields _).1]
    simp [upd]
  · rw [(tick_fields _).1]
    simp [upd]
  · intro j h1 h2 h3
    rw [(tick_fields _).1]
    simp [upd, h1, h2, h3]
  · rw [(tick_fields _).2.2.2.2.1]

/-- C9 witness: executing 0xF333 with V3 = 159 and I = 0x400 stores the
digits 1, 5, 9. -/
theorem C9_bcd_w :
    ∃ c2 evs, EmulateCycle 0 sC9 = some (c2, evs) ∧
      c2.Memory 0x400 = 1 ∧ c2.Memory 0x401 = 5 ∧ c2.Memory 0x402 = 9 := by
  obtain ⟨c2, evs, h1, h2, h3, h4, -, -⟩ :=
    C9_bcd 0 3 sC9 (by decide) (by decide) rfl rfl (by decide) (by decide)
  exact ⟨c2, evs, h1, h2, h3, h4⟩

/-- C10: the decoder of the top-nibble-0 group looks only at the low
nibble of the word: low nibble 0 runs the same clear screen branch as
0x00E0, low nibble 0xE runs the same return branch as 0x00EE, and any
other low nibble lands in the unknown opcode default that reports the
word and changes nothing. -/
theorem C10_zero_group (rnd : Nat) (c : CPU) (w : Nat)
    (h : w &&& 0xF000 = 0x0000) :
    (w &&& 0x000F = 0x0000 → execOp rnd w c = execOp rnd 0x00E0 c) ∧
    (w &&& 0x000F = 0x000E → execOp rnd w c = execOp rnd 0x00EE c) ∧
    (w &&& 0x000F ≠ 0x0000 → w &&& 0x000F ≠ 0x000E →
      execOp rnd w c = some (c, [Ev.unknownOp w], false)) := by
  refine ⟨?_, ?_, ?_⟩
  · intro h0
    simp +decide [execOp, h, h0]
  · intro h0
    simp +decide [execOp, h, h0]
  · intro h0 hE
    simp +decide [execOp, h, h0, hE]

/-- C10 witness: 0x0230 decodes like 0x00E0, 0x01FE decodes like 0x00EE,
and 0x0123 reaches the unknown opcode default. -/
theorem C10_zero_group_w :
    execOp 0 0x0230 c0 = execOp 0 0x00E0 c0 ∧
    execOp 0 0x01FE c0 = execOp 0 0x00EE c0 ∧
    execOp 0 0x0123 c0 = some (c0, [Ev.unknownOp 0x0123], false) :=
  ⟨(C10_zero_group 0 c0 0x0230 (by decide)).1 (by decide),
   (C10_zero_group 0 c0 0x01FE (by decide)).2.1 (by decide),
   (C10_zero_group 0 c0 0x0123 (by decide)).2.2 (by decide) (by decide)⟩

/-- State about to execute Fx0A (word 0xF10A) with no key pressed. -/
def sC4n : CPU := { c0 with Memory := memProg 0x200 0xF1 0x0A }

/-- State about to execute Fx0A (word 0xF10A) with keys 2 and 5 down. -/
def sC4p : CPU :=
  { c0 with Memory := memProg 0x200 0xF1 0x0A,
            Keypad := fun i => if i = 2 then 1 else if i = 5 then 1 else 0 }

/-- C4 counterexample: with keys 2 and 5 both down, Fx0A stores 5 (the
highest pressed index) into V1, not the lowest index 2 the claim
states. -/
theorem C4_lowest_key_cex :
    (EmulateCycle 0 sC4p).map (fun r => (r.1.V 1, r.1.Pc))
      = some (5, 0x202) ∧
    (EmulateCycle 0 sC4p).map (fun r => (r.1.V 1, r.1.Pc))
      ≠ some (2, 0x202) :=
  ⟨rfl, by decide⟩

/-- C4 as amended: while every keypad entry is 0 an Fx0A cycle leaves
PC, the registers, memory and both timers unchanged (the early return
also skips the timer update), and on a cycle where some key is down, the
highest pressed index is stored into Vx and PC advances by 2. -/
theorem C4_wait_key (rnd x : Nat) (c : CPU) (hx : x < 16)
    (hpc : c.Pc + 1 < 4096)
    (hb1 : c.Memory c.Pc = 0xF0 + x) (hb2 : c.Memory (c.Pc + 1) = 0x0A) :
    ((∀ i, i < 16 → c.Keypad i = 0) →
      ∃ c2 evs, EmulateCycle rnd c = some (c2, evs) ∧
        c2.Pc = c.Pc ∧ c2.V = c.V ∧ c2.Memory = c.Memory ∧
        c2.Keypad = c.Keypad ∧ c2.Delay_timer = c.Delay_timer ∧
        c2.Sound_timer = c.Sound_timer) ∧
    (∀ k, k < 16 → c.Keypad k ≠ 0 → (∀ j, k < j → j < 16 → c.Keypad j = 0) →
      ∃ c2 evs, EmulateCycle rnd c = some (c2, evs) ∧
        c2.V x = k ∧ c2.Pc = u16 (c.Pc + 2)) := by
  obtain ⟨w1, w2, w3, w4, w5, w6, w7, w8⟩ :=
    word_fields (0xF0 + x) 0x0A (by omega) (by decide)
  have e1 : (0xF0 + x) / 16 * 4096 = 61440 := by omega
  have e2 : (0xF0 + x) % 16 = x := by omega
  rw [e1] at w1
  rw [e2] at w2
  constructor
  · intro hkeys
    rw [EmulateCycle_fetch rnd c hpc, hb1, hb2]
    simp only [execOp, vxIdx, w1, w2, w7]
    rw [keyScan_none c.Keypad c.V x hkeys]
    simp +decide
  · intro k hk hK hz
    obtain ⟨hs1, hs2⟩ := keyScan_high c.Keypad c.V x k hk hK hz
    rw [EmulateCycle_fetch rnd c hpc, hb1, hb2]
    simp only [execOp, vxIdx, w1, w2, w7]
    rw [hs2]
    simp +decide
    refine exists_tick _ _ ⟨?_, ?_⟩
    · rw [(tick_fields _).2.2.1]
      exact hs1
    · rw [(tick_fields _).2.2.2.2.1]

/-- C4 witness for the amended statement: with no key down the Fx0A
cycle leaves PC at 0x200, and with keys 2 and 5 down it stores 5 into V1
and moves PC to 0x202. -/
theorem C4_wait_key_w :
    (∃ c2 evs, EmulateCycle 0 sC4n = some (c2, evs) ∧ c2.Pc = 0x200) ∧
    (∃ c2 evs, EmulateCycle 0 sC4p = some (c2, evs) ∧
      c2.V 1 = 5 ∧ c2.Pc = 0x202) := by
  constructor
  · obtain ⟨c2, evs, h, hpc, -⟩ :=
      (C4_wait_key 0 1 sC4n (by decide) (by decide) rfl rfl).1 (by decide)
    exact ⟨c2, evs, h, hpc⟩
  · obtain ⟨c2, evs, h, hv, hpc⟩ :=
      (C4_wait_key 0 1 sC4p (by decide) (by decide) rfl rfl).2 5
        (by decide) (by decide) (by intro j h1 h2; interval_cases j <;> rfl)
    exact ⟨c2, evs, h, hv, hpc⟩

end Chip8
